import Mathlib

/-!
Verification of the atomic-swap repository: the `SwapFactory.sol` escrow
contract, the swap-secret byte-order round trip, role B's contract checks and
exit handler, and the checkpoint-file writers of `protocol/write.go`.
-/

namespace AtomicSwap

/-- Word size of the EVM: arithmetic in Solidity 0.8 reverts on overflow past
`2^256 - 1`. -/
def U256 : Nat := 2 ^ 256

/-- The `Swap` struct of `SwapFactory.sol`: one record of the `swaps` mapping.
Addresses, `bytes32` commitments and `uint256` values are embedded as `Nat`. -/
structure Swap where
  owner : Nat
  claimer : Nat
  pubKeyClaim : Nat
  pubKeyRefund : Nat
  timeout_0 : Nat
  timeout_1 : Nat
  isReady : Bool
  completed : Bool
  value : Nat
  deriving DecidableEq, Repr

/-- The events of `SwapFactory.sol`. -/
inductive Event where
  | New (swapID claimKey refundKey : Nat)
  | Ready (swapID : Nat)
  | Claimed (swapID s : Nat)
  | Refunded (swapID s : Nat)
  deriving DecidableEq, Repr

/-- Modelled from the spec: `Secp256k1.sol` (`mulVerify`) is not under `src/`.
Per the spec, a scalar `s` is the accepted preimage exactly when the keccak256
commitment of its secp256k1 public key equals the stored commitment;
`secpCommit` abstracts the map `s ↦ keccak256(secp256k1_pubkey_of(s))`. -/
def mulVerify (secpCommit : Nat → Nat) (s pubKey : Nat) : Bool :=
  secpCommit s == pubKey

/-- `SwapFactory.verifySecret`: requires `secp256k1.mulVerify(uint(s), uint(pubKey))`. -/
def verifySecret (secpCommit : Nat → Nat) (s pubKey : Nat) : Except String Unit :=
  if mulVerify secpCommit s pubKey then .ok ()
  else .error "provided secret does not match the expected public key"

/-- `SwapFactory.new_swap`: builds the record stored at `swaps[id]` and the
`New` event. Checked `uint256` arithmetic: reverts when a timeout computation
overflows. `id` is the factory's `nextID`; `sender` is `msg.sender`,
`msgValue` is `msg.value`, `timestamp` is `block.timestamp`. -/
def new_swap (id sender timestamp msgValue : Nat)
    (pubKeyClaim pubKeyRefund claimer timeoutDuration : Nat) :
    Except String (Swap × Event) :=
  if timestamp + timeoutDuration < U256 ∧ timeoutDuration * 2 < U256 ∧
      timestamp + timeoutDuration * 2 < U256 then
    .ok ({ owner := sender, claimer := claimer, pubKeyClaim := pubKeyClaim,
           pubKeyRefund := pubKeyRefund,
           timeout_0 := timestamp + timeoutDuration,
           timeout_1 := timestamp + timeoutDuration * 2,
           isReady := false, completed := false, value := msgValue },
         Event.New id pubKeyClaim pubKeyRefund)
  else .error "arithmetic overflow"

/-- `SwapFactory.set_ready(id)`: acts on the record `swaps[id]`;
`sender` is `msg.sender`. -/
def set_ready (sw : Swap) (sender id : Nat) : Except String (Swap × Event) :=
  if sw.completed then .error "swap is already completed"
  else if ¬ sender = sw.owner then .error "only the swap owner can call set_ready"
  else if sw.isReady then .error "swap was already set to ready"
  else .ok ({ sw with isReady := true }, Event.Ready id)

/-- Result of a successful `claim` or `refund`: the updated `swaps[id]` record,
the ether transfer performed, and the emitted event. -/
structure CallResult where
  swap : Swap
  transferTo : Nat
  transferAmount : Nat
  event : Event
  deriving DecidableEq, Repr

/-- `SwapFactory.claim(id, s)`: acts on the record `swaps[id]`; `now` is
`block.timestamp`, `sender` is `msg.sender`. On success the only storage write
is `swaps[id].completed = true`. -/
def claim (secpCommit : Nat → Nat) (sw : Swap) (now sender id s : Nat) :
    Except String CallResult :=
  if sw.completed then .error "swap is already completed"
  else if ¬ sender = sw.claimer then .error "only claimer can claim!"
  else if ¬ (sw.timeout_0 ≤ now ∨ sw.isReady = true) then .error "too early to claim!"
  else if ¬ now < sw.timeout_1 then .error "too late to claim!"
  else
    match verifySecret secpCommit s sw.pubKeyClaim with
    | .error e => .error e
    | .ok _ => .ok { swap := { sw with completed := true },
                     transferTo := sw.claimer, transferAmount := sw.value,
                     event := Event.Claimed id s }

/-- `SwapFactory.refund(id, s)`: acts on the record `swaps[id]`; `now` is
`block.timestamp`, `sender` is `msg.sender`. On success the only storage write
is `swaps[id].completed = true`. -/
def refund (secpCommit : Nat → Nat) (sw : Swap) (now sender id s : Nat) :
    Except String CallResult :=
  if sw.completed then .error "swap is already completed"
  else if ¬ sender = sw.owner then .error "refund must be called by the swap owner"
  else if ¬ (sw.timeout_1 ≤ now ∨ (now < sw.timeout_0 ∧ sw.isReady = false)) then
    .error "it is the counterparty turn, unable to refund, try again later"
  else
    match verifySecret secpCommit s sw.pubKeyRefund with
    | .error e => .error e
    | .ok _ => .ok { swap := { sw with completed := true },
                     transferTo := sw.owner, transferAmount := sw.value,
                     event := Event.Refunded id s }

/-- A call made against the record `swaps[id]` after creation: the three
mutating entry points of the contract besides `new_swap`. -/
inductive Op where
  | setReadyOp (sender : Nat)
  | claimOp (now sender s : Nat)
  | refundOp (now sender s : Nat)
  deriving DecidableEq, Repr

/-- Runs one contract call against the record `swaps[id]`, returning the
updated record on success. -/
def applyOp (secpCommit : Nat → Nat) (id : Nat) (sw : Swap) : Op → Except String Swap
  | .setReadyOp sender => (set_ready sw sender id).map Prod.fst
  | .claimOp now sender s => (claim secpCommit sw now sender id s).map CallResult.swap
  | .refundOp now sender s => (refund secpCommit sw now sender id s).map CallResult.swap

/-- Runs one contract call; a revert leaves the stored record unchanged. -/
def stepOp (secpCommit : Nat → Nat) (id : Nat) (sw : Swap) (op : Op) : Swap :=
  match applyOp secpCommit id sw op with
  | .ok sw' => sw'
  | .error _ => sw

/-- Runs a sequence of contract calls against the record `swaps[id]`. -/
def runOps (secpCommit : Nat → Nat) (id : Nat) (sw : Swap) (ops : List Op) : Swap :=
  ops.foldl (stepOp secpCommit id) sw

/-! ## Byte order and log parsing (`common.Reverse`, `swapfactory` helpers) -/

/-- Modelled from the spec: `common.Reverse` is not under `src/`; per the spec
it reverses a byte slice (`reverse(reverse(x)) == x` is stated of it). Bytes
are embedded as `Nat` entries of a list. -/
def Reverse (b : List Nat) : List Nat := b.reverse

/-- `swapState.getSecret` (bob): reverses the little-endian DLEQ secret into
the 32-byte EVM (big-endian) order submitted to the contract. -/
def getSecret (dleqSecret : List Nat) : List Nat := Reverse dleqSecret

/-- Modelled from the spec: `mcrypto.PrivateSpendKey` (crypto/monero) is not
under `src/`; it wraps a 32-byte little-endian ed25519 spend-key scalar. -/
structure PrivateSpendKey where
  key : List Nat
  deriving DecidableEq, Repr

/-- Modelled from the spec: `mcrypto.NewPrivateSpendKey` is not under `src/`;
it builds a `PrivateSpendKey` from exactly 32 little-endian bytes. -/
def NewPrivateSpendKey (b : List Nat) : Except String PrivateSpendKey :=
  if b.length = 32 then .ok ⟨b⟩ else .error "input is not 32 bytes"

/-- A value produced by `abi.Unpack` on a log's data: the events of this
contract only carry `uint256` and `bytes32` parameters. -/
inductive AbiValue where
  | uint (n : Nat)
  | bytes32 (b : List Nat)
  deriving DecidableEq, Repr

/-- `swapfactory.GetSecretFromLog`: takes the unpacked data of a `Claimed` or
`Refunded` log (the JSON/ABI plumbing of go-ethereum is external) and returns
the secret as a private spend key, reversing the EVM byte order back to
little-endian. A failed Go type assertion is embedded as an error. -/
def GetSecretFromLog (logData : List AbiValue) (event : String) :
    Except String PrivateSpendKey :=
  if ¬ (event = "Refunded" ∨ event = "Claimed") then
    .error "invalid event name, must be one of Claimed or Refunded"
  else if logData.length < 2 then .error "log had not enough parameters"
  else
    match (logData[1]? : Option AbiValue) with
    | some (.bytes32 s) =>
      if s = List.replicate 32 0 then .error "got zero secret key from contract"
      else NewPrivateSpendKey (Reverse s)
    | _ => .error "type assertion failed"

/-- `swapfactory.CheckIfLogIDMatches`: takes the unpacked data of a `Claimed`
or `Refunded` log and compares its swap ID with the given one. -/
def CheckIfLogIDMatches (logData : List AbiValue) (event : String) (id : Nat) :
    Except String Bool :=
  if ¬ (event = "Refunded" ∨ event = "Claimed") then
    .error "invalid event name, must be one of Claimed or Refunded"
  else if logData.length < 2 then .error "log had not enough parameters"
  else
    match (logData[0]? : Option AbiValue) with
    | some (.uint eventID) => if ¬ eventID = id then .ok false else .ok true
    | _ => .error "type assertion failed"

/-! ## Role B: `checkContract` -/

/-- The parsed `New` event of a deployment receipt log
(`SwapFactory.ParseNew`). -/
structure NewEvent where
  swapID : Nat
  claimKey : List Nat
  refundKey : List Nat
  deriving DecidableEq, Repr

/-- `swapState.checkContract` (bob), after the receipt has been fetched: each
receipt log is given as `some` parsed `New` event or `none` when `ParseNew`
fails on it. `skOurs` is `keccak256` of B's secp256k1 public key, `skTheirs`
of Alice's; `swapsValue` is the contract's stored `value`, `expectedWei` the
wei amount B expects to receive. -/
def checkContract (receiptLogs : List (Option NewEvent)) (contractSwapID : Nat)
    (skOurs skTheirs : List Nat) (swapsValue expectedWei : Nat) :
    Except String Unit :=
  match receiptLogs with
  | [] => .error "cannot find New log"
  | log0 :: _ =>
    match log0 with
    | none => .error "failed to parse New log"
    | some event =>
      if ¬ event.swapID = contractSwapID then
        .error "unexpected swap ID was emitted by New log"
      else if ¬ event.claimKey = skOurs then
        .error "contract claim key is not expected"
      else if ¬ event.refundKey = skTheirs then
        .error "contract refund key is not expected"
      else if swapsValue < expectedWei then
        .error "contract does not have expected balance"
      else .ok ()

/-! ## Role B: exit handler, reclaim and claim -/

/-- Modelled from the spec: `types.Status` (common/types) is not under `src/`;
the user-visible statuses are exactly
`{Ongoing, CompletedSuccess, CompletedRefund, CompletedAbort}`. -/
inductive Status where
  | Ongoing
  | CompletedSuccess
  | CompletedRefund
  | CompletedAbort
  deriving DecidableEq, Repr

/-- Modelled from the spec: `Status.IsOngoing` is not under `src/`; a swap is
ongoing exactly when it has not reached one of the three terminal statuses. -/
def Status.IsOngoing : Status → Bool
  | .Ongoing => true
  | _ => false

/-- The network message kinds bob's `exit` dispatches on
(`net.SendKeysMessage`, `message.NotifyETHLocked`, `message.NotifyReady`; any
other message falls to the default branch). -/
inductive NetMessage where
  | SendKeysMessage
  | NotifyETHLocked
  | NotifyReady
  | NotifyXMRLocked
  deriving DecidableEq, Repr

/-- `bob/errors.go`: `errPastClaimTime`. -/
def errPastClaimTime : String := "past t1, can no longer claim"

/-- `bob/errors.go`: `errNoRefundLogsFound`. -/
def errNoRefundLogsFound : String := "no refund logs found"

/-- `bob/errors.go`: `errUnexpectedMessageType`. -/
def errUnexpectedMessageType : String := "unexpected message type"

/-- The `revertSwapCompleted` constant of bob's swap state. -/
def revertSwapCompleted : String := "swap is already completed"

/-- Whether `pat` occurs at the head of `l`. -/
def matchesFrom : List Char → List Char → Bool
  | _, [] => true
  | [], _ :: _ => false
  | x :: xs, y :: ys => x == y && matchesFrom xs ys

/-- Whether `pat` occurs contiguously anywhere in `l`. -/
def subAnywhere : List Char → List Char → Bool
  | [], pat => matchesFrom [] pat
  | x :: xs, pat => matchesFrom (x :: xs) pat || subAnywhere xs pat

/-- `strings.Contains`: whether `pat` is a substring of `s`. -/
def strContains (s pat : String) : Bool := subAnywhere s.toList pat.toList

/-- The order of the ed25519 group. -/
def ed25519Order : Nat := 2 ^ 252 + 27742317777372353535851937790883648493

/-- Little-endian byte decoding of a scalar. -/
def bytesToNatLE : List Nat → Nat
  | [] => 0
  | b :: rest => b % 256 + 256 * bytesToNatLE rest

/-- Little-endian byte encoding of a scalar into `len` bytes. -/
def natToBytesLE : Nat → Nat → List Nat
  | 0, _ => []
  | len + 1, v => v % 256 :: natToBytesLE len (v / 256)

/-- Modelled from the spec: `mcrypto.SumPrivateSpendKeys` is not under `src/`;
per the spec the shared spend key is `s_A + s_B` modulo the ed25519 order. -/
def SumPrivateSpendKeys (a b : PrivateSpendKey) : PrivateSpendKey :=
  ⟨natToBytesLE 32 ((bytesToNatLE a.key + bytesToNatLE b.key) % ed25519Order)⟩

/-- Modelled from the spec: `mcrypto.SumPrivateViewKeys` is not under `src/`;
the shared view key is the sum of the two view-key scalars modulo the ed25519
order. View keys are embedded as little-endian byte lists. -/
def SumPrivateViewKeys (a b : List Nat) : List Nat :=
  natToBytesLE 32 ((bytesToNatLE a + bytesToNatLE b) % ed25519Order)

/-- The externally observed world of bob's exit path: results of the RPC,
file-system and wallet calls the handler makes. Each field is the outcome the
environment would return for that call. -/
structure BobEnv where
  /-- `time.Now()`, as a unix-style instant. -/
  now : Int
  /-- `ethClient.FilterLogs` on the `Refunded` topic: the unpacked data of
  each returned log. -/
  refundLogs : Except String (List (List AbiValue))
  /-- `skA.View()`: the view key derived (by Keccak hashing, external) from a
  spend key. -/
  viewOf : PrivateSpendKey → Except String (List Nat)
  /-- `pcommon.WriteSharedSwapKeyPairToFile` on the shared key pair. -/
  writeSharedKeys : PrivateSpendKey → List Nat → Except String Unit
  /-- `monero.CreateMoneroWallet` on the shared key pair: the wallet address. -/
  createWallet : PrivateSpendKey → List Nat → Except String String
  /-- `contract.Swaps(id).IsReady`, as read by `tryClaim`. -/
  swapIsReady : Except String Bool
  /-- `claimFunds()`: the hash of the claim transaction, or the error (for an
  on-chain revert, its reason string). -/
  claimFunds : Except String Nat

/-- The fields of bob's `swapState` that its exit path reads and writes. -/
structure BobSwapState where
  status : Status
  nextExpectedMessage : Option NetMessage
  privSpendKeyB : PrivateSpendKey
  privViewKeyB : List Nat
  contractSwapID : Nat
  t0 : Int
  t1 : Int
  moneroReclaimAddress : Option String
  deriving DecidableEq, Repr

/-- The loop body of `filterForRefund`: a log is selected when
`CheckIfLogIDMatches` returns true; a log whose check errors is skipped. -/
def matchesRefundLog (id : Nat) (logData : List AbiValue) : Bool :=
  match CheckIfLogIDMatches logData "Refunded" id with
  | .ok b => b
  | .error _ => false

/-- `swapState.filterForRefund` (bob): scans the `Refunded`-topic logs of the
contract for one whose swap ID matches, and extracts Alice's secret from it. -/
def filterForRefund (env : BobEnv) (st : BobSwapState) :
    Except String PrivateSpendKey :=
  match env.refundLogs with
  | .error e => .error ("failed to filter logs: " ++ e)
  | .ok logs =>
    if logs.isEmpty then .error errNoRefundLogsFound
    else
      match logs.find? (matchesRefundLog st.contractSwapID) with
      | none => .error errNoRefundLogsFound
      | some logData =>
        match GetSecretFromLog logData "Refunded" with
        | .error e => .error ("failed to get secret from log: " ++ e)
        | .ok skA => .ok skA

/-- `swapState.reclaimMonero` (bob): derives Alice's view key, forms the
shared spend and view keys, persists them, and constructs the shared wallet. -/
def reclaimMonero (env : BobEnv) (st : BobSwapState) (skA : PrivateSpendKey) :
    Except String String :=
  match env.viewOf skA with
  | .error e => .error e
  | .ok vkA =>
    let skAB := SumPrivateSpendKeys skA st.privSpendKeyB
    let vkAB := SumPrivateViewKeys vkA st.privViewKeyB
    match env.writeSharedKeys skAB vkAB with
    | .error e => .error e
    | .ok _ => env.createWallet skAB vkAB

/-- `swapState.tryReclaimMonero` (bob). -/
def tryReclaimMonero (env : BobEnv) (st : BobSwapState) : Except String String :=
  match filterForRefund env st with
  | .error e => .error e
  | .ok skA => reclaimMonero env st skA

instance {ε α : Type} [DecidableEq ε] [DecidableEq α] : DecidableEq (Except ε α) :=
  fun x y =>
    match x, y with
    | .ok a, .ok b =>
      if h : a = b then .isTrue (by rw [h]) else .isFalse (by simp [h])
    | .ok _, .error _ => .isFalse (by simp)
    | .error _, .ok _ => .isFalse (by simp)
    | .error e, .error f =>
      if h : e = f then .isTrue (by rw [h]) else .isFalse (by simp [h])

/-- Outcome of `tryClaim`: whether the handler slept until `t0`, and the
result it returned. -/
structure TryClaimRun where
  waitedUntilT0 : Bool
  result : Except String Nat
  deriving DecidableEq, Repr

/-- `swapState.tryClaim` (bob): `untilT0`/`untilT1` are computed before any
waiting, the swap's `IsReady` is read from the contract, the handler waits
until `t0` when too early and the swap is not ready, then errors with
`errPastClaimTime` when `t1` has already passed, and otherwise claims. -/
def tryClaim (env : BobEnv) (st : BobSwapState) : TryClaimRun :=
  let untilT0 : Int := st.t0 - env.now
  let untilT1 : Int := st.t1 - env.now
  match env.swapIsReady with
  | .error e => ⟨false, .error e⟩
  | .ok ready =>
    let waited := decide (0 < untilT0) && !ready
    if untilT1 < 0 then ⟨waited, .error errPastClaimTime⟩
    else ⟨waited, env.claimFunds⟩

/-- Modelled from the spec: `clearNextExpectedMessage` is not under `src/`;
per its uses it records the new status and clears the next-expected-message
discriminator. -/
def clearNextExpectedMessage (st : BobSwapState) (status : Status) : BobSwapState :=
  { st with nextExpectedMessage := none, status := status }

/-- `swapState.exit` (bob): the exit handler(the deferred goroutine cleanup
and the offer re-add are external effects and not part of the state modelled
here). Returns the error result of the handler and the final swap state. -/
def exit (env : BobEnv) (st : BobSwapState) : Except String Unit × BobSwapState :=
  if st.status = .CompletedSuccess then (.ok (), st)
  else if st.status = .CompletedRefund then (.ok (), st)
  else
    match st.nextExpectedMessage with
    | some .SendKeysMessage => (.ok (), clearNextExpectedMessage st .CompletedAbort)
    | some .NotifyETHLocked => (.ok (), clearNextExpectedMessage st .CompletedAbort)
    | some .NotifyReady =>
      match tryReclaimMonero env st with
      | .ok address =>
        (.ok (), { clearNextExpectedMessage st .CompletedRefund with
                   moneroReclaimAddress := some address })
      | .error _ =>
        match (tryClaim env st).result with
        | .ok _ => (.ok (), clearNextExpectedMessage st .CompletedSuccess)
        | .error e =>
          if strContains e revertSwapCompleted && !st.status.IsOngoing then
            (.ok (), st)
          else (.error e, st)
    | _ => (.error errUnexpectedMessageType, clearNextExpectedMessage st .CompletedAbort)

/-! ## Checkpoint file (`protocol/write.go`) -/

/-- `mcrypto.PrivateKeyInfo` (not under `src/`, modelled from its uses in
`recovery.go`): the hex-encoded persisted form of a key pair. -/
structure PrivKeyInfo where
  PrivateSpendKey : String
  PrivateViewKey : String
  deriving DecidableEq, Repr

/-- `protocol.InfoFileContents`: the JSON checkpoint file's contents. Go nil
pointers are `none`. -/
structure InfoFileContents where
  ContractAddress : String
  ContractSwapID : List Nat
  ContractSwap : Swap
  PrivateKeyInfo : Option PrivKeyInfo
  SharedSwapPrivateKey : Option PrivKeyInfo
  deriving DecidableEq, Repr

/-- The Go zero value of `InfoFileContents`. -/
def emptyInfoFileContents : InfoFileContents :=
  { ContractAddress := ""
    ContractSwapID := List.replicate 32 0
    ContractSwap := { owner := 0, claimer := 0, pubKeyClaim := 0, pubKeyRefund := 0,
                      timeout_0 := 0, timeout_1 := 0, isReady := false,
                      completed := false, value := 0 }
    PrivateKeyInfo := none
    SharedSwapPrivateKey := none }

/-- The state of the checkpoint file: `none` when it does not exist,
`some none` when it exists but does not unmarshal, `some (some c)` when it
exists and unmarshals to `c`. -/
def FileState : Type := Option (Option InfoFileContents)

/-- `protocol.setupFile`: reads and unmarshals the existing file (then
truncates it), or starts from the zero contents when the file is absent. -/
def setupFile : FileState → Except String InfoFileContents
  | none => .ok emptyInfoFileContents
  | some none => .error "failed to unmarshal"
  | some (some c) => .ok c

/-- `protocol.WriteContractAddressToFile`: read-modify-write of the
checkpoint file, setting only the contract address. -/
def WriteContractAddressToFile (fs : FileState) (addr : String) :
    Except String FileState :=
  match setupFile fs with
  | .error e => .error e
  | .ok c => .ok (some (some { c with ContractAddress := addr }))

/-- `protocol.WriteContractSwapToFile`: read-modify-write of the checkpoint
file, setting only the swap ID and the contract swap struct. -/
def WriteContractSwapToFile (fs : FileState) (swapID : List Nat) (swap : Swap) :
    Except String FileState :=
  match setupFile fs with
  | .error e => .error e
  | .ok c => .ok (some (some { c with ContractSwapID := swapID, ContractSwap := swap }))

/-- `protocol.WriteKeysToFile`: read-modify-write of the checkpoint file,
setting only this side's private key info (`keys.Info(env)`, computed by the
external mcrypto package, is taken as given). -/
def WriteKeysToFile (fs : FileState) (keysInfo : PrivKeyInfo) :
    Except String FileState :=
  match setupFile fs with
  | .error e => .error e
  | .ok c => .ok (some (some { c with PrivateKeyInfo := some keysInfo }))

/-- `protocol.WriteSharedSwapKeyPairToFile`: read-modify-write of the
checkpoint file, setting only the shared swap private key info. -/
def WriteSharedSwapKeyPairToFile (fs : FileState) (keysInfo : PrivKeyInfo) :
    Except String FileState :=
  match setupFile fs with
  | .error e => .error e
  | .ok c => .ok (some (some { c with SharedSwapPrivateKey := some keysInfo }))

/-! ## Helper lemmas -/

theorem except_cases {ε α : Type} (x : Except ε α) :
    (∃ a, x = .ok a) ∨ (∃ e, x = .error e) := by
  cases x
  · exact Or.inr ⟨_, rfl⟩
  · exact Or.inl ⟨_, rfl⟩

/-- The spec's precondition row for `claim`, in the spec's words:
caller is the claimer; `(now≥t0 or Ready) AND now<t1 AND not Completed`;
`keccak(pub(s)) == pubKeyClaim`. -/
def claimSpecPre (secpCommit : Nat → Nat) (sw : Swap) (now sender s : Nat) : Prop :=
  sender = sw.claimer ∧ sw.completed = false ∧
  (sw.timeout_0 ≤ now ∨ sw.isReady = true) ∧ now < sw.timeout_1 ∧
  secpCommit s = sw.pubKeyClaim

/-- The spec's precondition row for `refund`, in the spec's words:
caller is the owner; `not Completed AND (now≥t1 OR (now<t0 AND not Ready))`;
`keccak(pub(s)) == pubKeyRefund`. -/
def refundSpecPre (secpCommit : Nat → Nat) (sw : Swap) (now sender s : Nat) : Prop :=
  sender = sw.owner ∧ sw.completed = false ∧
  (sw.timeout_1 ≤ now ∨ (now < sw.timeout_0 ∧ sw.isReady = false)) ∧
  secpCommit s = sw.pubKeyRefund

theorem claim_ok_char (sc : Nat → Nat) (sw : Swap) (now sender id s : Nat)
    (r : CallResult) :
    claim sc sw now sender id s = .ok r ↔
      (sw.completed = false ∧ sender = sw.claimer ∧
       (sw.timeout_0 ≤ now ∨ sw.isReady = true) ∧ now < sw.timeout_1 ∧
       sc s = sw.pubKeyClaim ∧
       r = ⟨{ sw with completed := true }, sw.claimer, sw.value,
            Event.Claimed id s⟩) := by
  unfold claim verifySecret mulVerify
  by_cases h1 : sw.completed = true
  · simp [h1]
  · by_cases h2 : sender = sw.claimer
    · by_cases h3 : sw.timeout_0 ≤ now ∨ sw.isReady = true
      · by_cases h4 : now < sw.timeout_1
        · by_cases h5 : sc s = sw.pubKeyClaim
          · simp only [h1, h2, h3, h4, h5]
            simp
            exact eq_comm
          · simp [h1, h2, h3, h4, h5]
        · simp [h1, h2, h3, h4]
      · simp [h1, h2, h3]
    · simp [h1, h2]

theorem refund_ok_char (sc : Nat → Nat) (sw : Swap) (now sender id s : Nat)
    (r : CallResult) :
    refund sc sw now sender id s = .ok r ↔
      (sw.completed = false ∧ sender = sw.owner ∧
       (sw.timeout_1 ≤ now ∨ (now < sw.timeout_0 ∧ sw.isReady = false)) ∧
       sc s = sw.pubKeyRefund ∧
       r = ⟨{ sw with completed := true }, sw.owner, sw.value,
            Event.Refunded id s⟩) := by
  unfold refund verifySecret mulVerify
  by_cases h1 : sw.completed = true
  · simp [h1]
  · by_cases h2 : sender = sw.owner
    · by_cases h3 : sw.timeout_1 ≤ now ∨ (now < sw.timeout_0 ∧ sw.isReady = false)
      · by_cases h4 : sc s = sw.pubKeyRefund
        · simp only [h1, h2, h3, h4]
          simp
          exact eq_comm
        · simp [h1, h2, h3, h4]
      · simp [h1, h2, h3]
    · simp [h1, h2]

theorem set_ready_ok_char (sw : Swap) (sender id : Nat) (r : Swap × Event) :
    set_ready sw sender id = .ok r ↔
      (sw.completed = false ∧ sender = sw.owner ∧ sw.isReady = false ∧
       r = ({ sw with isReady := true }, Event.Ready id)) := by
  unfold set_ready
  by_cases h1 : sw.completed = true
  · simp [h1]
  · by_cases h2 : sender = sw.owner
    · by_cases h3 : sw.isReady = true
      · simp [h1, h2, h3]
      · simp [h1, h2, h3, eq_comm]
    · simp [h1, h2]

theorem stepOp_of_completed (sc : Nat → Nat) (id : Nat) (sw : Swap) (op : Op)
    (h : sw.completed = true) : stepOp sc id sw op = sw := by
  cases op <;> simp [stepOp, applyOp, set_ready, claim, refund, h, Except.map]

theorem runOps_of_completed (sc : Nat → Nat) (id : Nat) (sw : Swap)
    (ops : List Op) (h : sw.completed = true) : runOps sc id sw ops = sw := by
  induction ops with
  | nil => rfl
  | cons op ops ih =>
    show runOps sc id (stepOp sc id sw op) ops = sw
    rw [stepOp_of_completed sc id sw op h, ih]

theorem stepOp_isReady (sc : Nat → Nat) (id : Nat) (sw : Swap) (op : Op)
    (h : sw.isReady = true) : (stepOp sc id sw op).isReady = true := by
  cases op with
  | setReadyOp sender =>
    rcases except_cases (set_ready sw sender id) with ⟨r, hr⟩ | ⟨e, he⟩
    · rcases (set_ready_ok_char sw sender id r).mp hr with ⟨_, _, hready, _⟩
      rw [h] at hready
      exact absurd hready (by simp)
    · have hstep : stepOp sc id sw (.setReadyOp sender) = sw := by
        simp [stepOp, applyOp, he, Except.map]
      rw [hstep]; exact h
  | claimOp now sender s =>
    rcases except_cases (claim sc sw now sender id s) with ⟨r, hr⟩ | ⟨e, he⟩
    · have hstep : stepOp sc id sw (.claimOp now sender s) = r.swap := by
        simp [stepOp, applyOp, hr, Except.map]
      rw [hstep]
      rcases (claim_ok_char sc sw now sender id s r).mp hr with
        ⟨_, _, _, _, _, hrval⟩
      rw [hrval]
      exact h
    · have hstep : stepOp sc id sw (.claimOp now sender s) = sw := by
        simp [stepOp, applyOp, he, Except.map]
      rw [hstep]; exact h
  | refundOp now sender s =>
    rcases except_cases (refund sc sw now sender id s) with ⟨r, hr⟩ | ⟨e, he⟩
    · have hstep : stepOp sc id sw (.refundOp now sender s) = r.swap := by
        simp [stepOp, applyOp, hr, Except.map]
      rw [hstep]
      rcases (refund_ok_char sc sw now sender id s r).mp hr with
        ⟨_, _, _, _, hrval⟩
      rw [hrval]
      exact h
    · have hstep : stepOp sc id sw (.refundOp now sender s) = sw := by
        simp [stepOp, applyOp, he, Except.map]
      rw [hstep]; exact h

theorem runOps_isReady (sc : Nat → Nat) (id : Nat) (sw : Swap) (ops : List Op)
    (h : sw.isReady = true) : (runOps sc id sw ops).isReady = true := by
  induction ops generalizing sw with
  | nil => exact h
  | cons op ops ih =>
    show (runOps sc id (stepOp sc id sw op) ops).isReady = true
    exact ih _ (stepOp_isReady sc id sw op h)

/-! ## Claim theorems -/

/-- Claim C2: the contract's `claim(id, s)` succeeds if and only if the caller
is the swap's claimer, the swap is not completed, `now ≥ timeout_0` or
`isReady` is set, and `now < timeout_1`, and the secp256k1 public key of `s`
keccak-hashes to `pubKeyClaim`; on success it marks the swap completed,
transfers the swap's value to the claimer and emits `Claimed(id, s)`; on any
failed precondition it reverts (an error, with no new state, so the stored
record is unchanged). -/
theorem claim_matches_spec (sc : Nat → Nat) (sw : Swap) (now sender id s : Nat) :
    ((∃ r, claim sc sw now sender id s = .ok r) ↔
      claimSpecPre sc sw now sender s) ∧
    (claimSpecPre sc sw now sender s →
      claim sc sw now sender id s =
        .ok ⟨{ sw with completed := true }, sw.claimer, sw.value,
             Event.Claimed id s⟩) ∧
    (¬ claimSpecPre sc sw now sender s →
      ∃ e, claim sc sw now sender id s = .error e) := by
  refine ⟨⟨?_, ?_⟩, ?_, ?_⟩
  · rintro ⟨r, hr⟩
    rcases (claim_ok_char sc sw now sender id s r).mp hr with ⟨hc, hs, ht, ht1, hk, _⟩
    exact ⟨hs, hc, ht, ht1, hk⟩
  · rintro ⟨hs, hc, ht, ht1, hk⟩
    exact ⟨_, (claim_ok_char sc sw now sender id s _).mpr ⟨hc, hs, ht, ht1, hk, rfl⟩⟩
  · rintro ⟨hs, hc, ht, ht1, hk⟩
    exact (claim_ok_char sc sw now sender id s _).mpr ⟨hc, hs, ht, ht1, hk, rfl⟩
  · intro hnp
    rcases except_cases (claim sc sw now sender id s) with ⟨r, hr⟩ | ⟨e, he⟩
    · rcases (claim_ok_char sc sw now sender id s r).mp hr with ⟨hc, hs, ht, ht1, hk, _⟩
      exact absurd ⟨hs, hc, ht, ht1, hk⟩ hnp
    · exact ⟨e, he⟩

/-- Witness for C2: a concrete successful claim. -/
theorem claim_matches_spec_witness :
    claim (fun a => a) ⟨1, 2, 5, 6, 10, 20, false, false, 9⟩ 15 2 0 5 =
      .ok ⟨⟨1, 2, 5, 6, 10, 20, false, true, 9⟩, 2, 9, Event.Claimed 0 5⟩ :=
  (claim_matches_spec (fun a => a) ⟨1, 2, 5, 6, 10, 20, false, false, 9⟩
    15 2 0 5).2.1 ⟨rfl, rfl, Or.inl (by decide), by decide, rfl⟩

/-- Claim C3: the contract's `refund(id, s)` succeeds if and only if the
caller is the swap's owner, the swap is not completed, `now ≥ timeout_1` or
(`now < timeout_0` and `isReady` is not set), and the secp256k1 public key of
`s` keccak-hashes to `pubKeyRefund`; on success it marks the swap completed,
transfers the swap's value to the owner and emits `Refunded(id, s)`;
otherwise it reverts (an error, with no new state, so the stored record is
unchanged). -/
theorem refund_matches_spec (sc : Nat → Nat) (sw : Swap) (now sender id s : Nat) :
    ((∃ r, refund sc sw now sender id s = .ok r) ↔
      refundSpecPre sc sw now sender s) ∧
    (refundSpecPre sc sw now sender s →
      refund sc sw now sender id s =
        .ok ⟨{ sw with completed := true }, sw.owner, sw.value,
             Event.Refunded id s⟩) ∧
    (¬ refundSpecPre sc sw now sender s →
      ∃ e, refund sc sw now sender id s = .error e) := by
  refine ⟨⟨?_, ?_⟩, ?_, ?_⟩
  · rintro ⟨r, hr⟩
    rcases (refund_ok_char sc sw now sender id s r).mp hr with ⟨hc, hs, ht, hk, _⟩
    exact ⟨hs, hc, ht, hk⟩
  · rintro ⟨hs, hc, ht, hk⟩
    exact ⟨_, (refund_ok_char sc sw now sender id s _).mpr ⟨hc, hs, ht, hk, rfl⟩⟩
  · rintro ⟨hs, hc, ht, hk⟩
    exact (refund_ok_char sc sw now sender id s _).mpr ⟨hc, hs, ht, hk, rfl⟩
  · intro hnp
    rcases except_cases (refund sc sw now sender id s) with ⟨r, hr⟩ | ⟨e, he⟩
    · rcases (refund_ok_char sc sw now sender id s r).mp hr with ⟨hc, hs, ht, hk, _⟩
      exact absurd ⟨hs, hc, ht, hk⟩ hnp
    · exact ⟨e, he⟩

/-- Witness for C3: a concrete successful refund after `timeout_1`. -/
theorem refund_matches_spec_witness :
    refund (fun a => a) ⟨1, 2, 5, 6, 10, 20, false, false, 9⟩ 25 1 0 6 =
      .ok ⟨⟨1, 2, 5, 6, 10, 20, false, true, 9⟩, 1, 9, Event.Refunded 0 6⟩ :=
  (refund_matches_spec (fun a => a) ⟨1, 2, 5, 6, 10, 20, false, false, 9⟩
    25 1 0 6).2.1 ⟨rfl, rfl, Or.inl (by decide), rfl⟩

/-- Claim C1: for every `swapID`, `claim` and `refund` cannot both succeed:
a successful `claim` or `refund` sets the `completed` flag of `swaps[id]`;
once `completed` is true it stays true under any sequence of contract calls;
and any later `claim` or `refund` call on that record reverts. -/
theorem claim_refund_mutually_exclusive (sc : Nat → Nat) (id : Nat) (sw : Swap) :
    (∀ now sender s r, claim sc sw now sender id s = .ok r →
      r.swap.completed = true) ∧
    (∀ now sender s r, refund sc sw now sender id s = .ok r →
      r.swap.completed = true) ∧
    (sw.completed = true → ∀ ops, (runOps sc id sw ops).completed = true) ∧
    (sw.completed = true → ∀ now sender s,
      (∃ e, claim sc sw now sender id s = .error e) ∧
      (∃ e, refund sc sw now sender id s = .error e)) ∧
    (∀ now sender s r ops now' sender' s',
      claim sc sw now sender id s = .ok r →
      ∃ e, refund sc (runOps sc id r.swap ops) now' sender' id s' = .error e) ∧
    (∀ now sender s r ops now' sender' s',
      refund sc sw now sender id s = .ok r →
      ∃ e, claim sc (runOps sc id r.swap ops) now' sender' id s' = .error e) := by
  have hclaimC : ∀ (sw' : Swap) now sender s r,
      claim sc sw' now sender id s = .ok r → r.swap.completed = true := by
    intro sw' now sender s r hr
    rcases (claim_ok_char sc sw' now sender id s r).mp hr with ⟨_, _, _, _, _, hrval⟩
    rw [hrval]
  have hrefundC : ∀ (sw' : Swap) now sender s r,
      refund sc sw' now sender id s = .ok r → r.swap.completed = true := by
    intro sw' now sender s r hr
    rcases (refund_ok_char sc sw' now sender id s r).mp hr with ⟨_, _, _, _, hrval⟩
    rw [hrval]
  have hclaimE : ∀ (sw' : Swap), sw'.completed = true → ∀ now sender s,
      ∃ e, claim sc sw' now sender id s = .error e := by
    intro sw' h now sender s
    exact ⟨"swap is already completed", by simp [claim, h]⟩
  have hrefundE : ∀ (sw' : Swap), sw'.completed = true → ∀ now sender s,
      ∃ e, refund sc sw' now sender id s = .error e := by
    intro sw' h now sender s
    exact ⟨"swap is already completed", by simp [refund, h]⟩
  refine ⟨hclaimC sw, hrefundC sw, ?_, ?_, ?_, ?_⟩
  · intro h ops
    rw [runOps_of_completed sc id sw ops h]
    exact h
  · intro h now sender s
    exact ⟨hclaimE sw h now sender s, hrefundE sw h now sender s⟩
  · intro now sender s r ops now' sender' s' hr
    have hc := hclaimC sw now sender s r hr
    rw [runOps_of_completed sc id r.swap ops hc]
    exact hrefundE r.swap hc now' sender' s'
  · intro now sender s r ops now' sender' s' hr
    have hc := hrefundC sw now sender s r hr
    rw [runOps_of_completed sc id r.swap ops hc]
    exact hclaimE r.swap hc now' sender' s'

/-- Witness for C1: after a concrete successful claim, a refund attempt on the
resulting record reverts. -/
theorem claim_refund_mutually_exclusive_witness :
    ∃ e, refund (fun a => a)
        (runOps (fun a => a) 0 ⟨1, 2, 5, 6, 10, 20, false, true, 9⟩ [])
        25 1 0 6 = .error e :=
  (claim_refund_mutually_exclusive (fun a => a) 0
      ⟨1, 2, 5, 6, 10, 20, false, false, 9⟩).2.2.2.2.1
    15 2 5 ⟨⟨1, 2, 5, 6, 10, 20, false, true, 9⟩, 2, 9, Event.Claimed 0 5⟩ []
    25 1 6 (by decide)

/-- Claim C9: `set_ready(id)` succeeds exactly when called by the owner on a
non-completed swap whose `isReady` flag is false; it then sets `isReady` and
emits `Ready(id)`, and every subsequent `set_ready` call on the same record,
after any sequence of contract calls, reverts. -/
theorem set_ready_only_first_time (sw : Swap) (sender id : Nat) :
    ((∃ r, set_ready sw sender id = .ok r) ↔
      (sw.completed = false ∧ sender = sw.owner ∧ sw.isReady = false)) ∧
    (sw.completed = false → sender = sw.owner → sw.isReady = false →
      set_ready sw sender id = .ok ({ sw with isReady := true }, Event.Ready id)) ∧
    (∀ r, set_ready sw sender id = .ok r →
      ∀ sc ops sender', ∃ e, set_ready (runOps sc id r.1 ops) sender' id = .error e) := by
  refine ⟨⟨?_, ?_⟩, ?_, ?_⟩
  · rintro ⟨r, hr⟩
    rcases (set_ready_ok_char sw sender id r).mp hr with ⟨hc, hs, hready, _⟩
    exact ⟨hc, hs, hready⟩
  · rintro ⟨hc, hs, hready⟩
    exact ⟨_, (set_ready_ok_char sw sender id _).mpr ⟨hc, hs, hready, rfl⟩⟩
  · intro hc hs hready
    exact (set_ready_ok_char sw sender id _).mpr ⟨hc, hs, hready, rfl⟩
  · intro r hr sc ops sender'
    rcases (set_ready_ok_char sw sender id r).mp hr with ⟨_, _, _, hrval⟩
    have hready : r.1.isReady = true := by rw [hrval]
    have hX : (runOps sc id r.1 ops).isReady = true :=
      runOps_isReady sc id r.1 ops hready
    rcases except_cases (set_ready (runOps sc id r.1 ops) sender' id) with
      ⟨r', hr'⟩ | ⟨e, he⟩
    · rcases (set_ready_ok_char _ sender' id r').mp hr' with ⟨_, _, hfalse, _⟩
      rw [hX] at hfalse
      exact absurd hfalse (by simp)
    · exact ⟨e, he⟩

/-- Witness for C9: a concrete first `set_ready` succeeds. -/
theorem set_ready_only_first_time_witness :
    set_ready ⟨1, 2, 5, 6, 10, 20, false, false, 9⟩ 1 0 =
      .ok (⟨1, 2, 5, 6, 10, 20, true, false, 9⟩, Event.Ready 0) :=
  (set_ready_only_first_time ⟨1, 2, 5, 6, 10, 20, false, false, 9⟩ 1 0).2.1
    rfl rfl rfl

/-- Claim C4 (amended): a swap created by `new_swap` with timeout duration `D`
at creation timestamp `c` stores `timeout_0 = c + D` and `timeout_1 = c + 2·D`
and hence `timeout_1 − c = 2·(timeout_0 − c)`; the strict chain
`timeout_1 > timeout_0 > c` additionally needs `0 < D` (the unamended claim
asserts it for every `D` and fails at `D = 0`). -/
theorem new_swap_timeouts (id sender c msgValue pkc pkr claimer D : Nat)
    (sw : Swap) (ev : Event)
    (h : new_swap id sender c msgValue pkc pkr claimer D = .ok (sw, ev)) :
    sw.timeout_0 = c + D ∧ sw.timeout_1 = c + 2 * D ∧
    sw.timeout_1 - c = 2 * (sw.timeout_0 - c) ∧
    (0 < D → c < sw.timeout_0 ∧ sw.timeout_0 < sw.timeout_1) := by
  unfold new_swap at h
  split_ifs at h with hov
  rw [Except.ok.injEq, Prod.mk.injEq] at h
  obtain ⟨hsw, _⟩ := h
  subst hsw
  dsimp only
  exact ⟨rfl, by omega, by omega, fun hD => ⟨by omega, by omega⟩⟩

/-- Counterexample to C4 as stated: with `D = 0` the created swap has
`timeout_0 = timeout_1 = c`, so the strict chain `timeout_1 > timeout_0 > c`
fails. -/
theorem new_swap_timeouts_counterexample :
    new_swap 0 1 100 9 5 6 2 0 =
      .ok (⟨1, 2, 5, 6, 100, 100, false, false, 9⟩, Event.New 0 5 6) ∧
    ¬ (⟨1, 2, 5, 6, 100, 100, false, false, 9⟩ : Swap).timeout_0 <
      (⟨1, 2, 5, 6, 100, 100, false, false, 9⟩ : Swap).timeout_1 := by
  constructor
  · decide
  · decide

/-- Claim C5: reversing a 32-byte scalar twice is the identity, and a scalar
submitted to the contract through `getSecret` (EVM byte order), when parsed
back from a `Claimed` or `Refunded` log by `GetSecretFromLog` (which reverses
again), equals the DLEQ secret held by the emitting role. -/
theorem secret_byte_order_roundtrip (secret : List Nat) (id : Nat) (ev : String)
    (h32 : secret.length = 32) (hnz : secret ≠ List.replicate 32 0)
    (hev : ev = "Claimed" ∨ ev = "Refunded") :
    Reverse (Reverse secret) = secret ∧
    GetSecretFromLog [.uint id, .bytes32 (getSecret secret)] ev =
      .ok ⟨secret⟩ := by
  have hrev : Reverse (getSecret secret) = secret := by simp [Reverse, getSecret]
  refine ⟨by simp [Reverse], ?_⟩
  have hnz' : ¬ getSecret secret = List.replicate 32 0 := by
    intro hcontra
    apply hnz
    have hc := congrArg List.reverse hcontra
    simpa [getSecret, Reverse, List.reverse_replicate] using hc
  unfold GetSecretFromLog
  rw [if_neg (not_not_intro (Or.symm hev)), if_neg (by simp)]
  simp only [List.getElem?_cons_succ, List.getElem?_cons_zero]
  rw [if_neg hnz', hrev]
  unfold NewPrivateSpendKey
  rw [if_pos h32]

/-- Witness for C5: a concrete 32-byte secret round trips through a `Claimed`
log. -/
theorem secret_byte_order_roundtrip_witness :
    Reverse (Reverse ((1 : Nat) :: List.replicate 31 0)) =
      (1 : Nat) :: List.replicate 31 0 ∧
    GetSecretFromLog
      [.uint 7, .bytes32 (getSecret ((1 : Nat) :: List.replicate 31 0))]
      "Claimed" = .ok ⟨(1 : Nat) :: List.replicate 31 0⟩ :=
  secret_byte_order_roundtrip ((1 : Nat) :: List.replicate 31 0) 7 "Claimed"
    (by decide) (by decide) (Or.inl rfl)

/-- The spec's verification conditions for role B's contract check, in the
spec's words: a `New` log exists in the deployment receipt (its first log
parses as `New`), the log's swap ID matches the reported one, the claim
commitment equals `keccak(secp_pub_B)`, the refund commitment equals
`keccak(secp_pub_A)`, and the contract's `value` is at least the expected wei
amount. -/
def checkContractSpecOk (receiptLogs : List (Option NewEvent))
    (contractSwapID : Nat) (skOurs skTheirs : List Nat)
    (swapsValue expectedWei : Nat) : Prop :=
  ∃ ev rest, receiptLogs = some ev :: rest ∧ ev.swapID = contractSwapID ∧
    ev.claimKey = skOurs ∧ ev.refundKey = skTheirs ∧ expectedWei ≤ swapsValue

/-- Claim C6: role B's `checkContract` returns an error if and only if the
receipt has no (parseable first) `New` log, or the log's swap ID differs from
the reported one, or its claim key differs from `keccak256` of B's secp256k1
public key, or its refund key differs from `keccak256` of A's secp256k1
public key, or the contract's stored value is strictly below the expected wei
amount; a value greater than or equal to the expected amount passes. -/
theorem checkContract_matches_spec (receiptLogs : List (Option NewEvent))
    (contractSwapID : Nat) (skOurs skTheirs : List Nat)
    (swapsValue expectedWei : Nat) :
    (checkContract receiptLogs contractSwapID skOurs skTheirs swapsValue
        expectedWei = .ok () ↔
      checkContractSpecOk receiptLogs contractSwapID skOurs skTheirs
        swapsValue expectedWei) ∧
    ((∃ e, checkContract receiptLogs contractSwapID skOurs skTheirs swapsValue
        expectedWei = .error e) ↔
      ¬ checkContractSpecOk receiptLogs contractSwapID skOurs skTheirs
        swapsValue expectedWei) := by
  have hok : checkContract receiptLogs contractSwapID skOurs skTheirs swapsValue
      expectedWei = .ok () ↔
      checkContractSpecOk receiptLogs contractSwapID skOurs skTheirs
        swapsValue expectedWei := by
    cases receiptLogs with
    | nil => simp [checkContract, checkContractSpecOk]
    | cons head rest =>
      cases head with
      | none => simp [checkContract, checkContractSpecOk]
      | some ev =>
        unfold checkContract checkContractSpecOk
        by_cases h1 : ev.swapID = contractSwapID <;>
          by_cases h2 : ev.claimKey = skOurs <;>
            by_cases h3 : ev.refundKey = skTheirs <;>
              by_cases h4 : swapsValue < expectedWei <;>
                simp [h1, h2, h3, h4] <;> omega
  refine ⟨hok, ?_, ?_⟩
  · rintro ⟨e, he⟩ hspec
    rw [hok.mpr hspec] at he
    exact absurd he (by simp)
  · intro hnspec
    rcases except_cases (checkContract receiptLogs contractSwapID skOurs
        skTheirs swapsValue expectedWei) with ⟨a, ha⟩ | ⟨e, he⟩
    · cases a
      exact absurd (hok.mp ha) hnspec
    · exact ⟨e, he⟩

/-- Witness for C6: a concrete receipt whose `New` log matches and whose value
exceeds the expected amount passes. -/
theorem checkContract_matches_spec_witness :
    checkContract [some ⟨7, [1], [2]⟩] 7 [1] [2] 10 9 = .ok () :=
  (checkContract_matches_spec [some ⟨7, [1], [2]⟩] 7 [1] [2] 10 9).1.mpr
    ⟨⟨7, [1], [2]⟩, [], rfl, rfl, rfl, rfl, by decide⟩

/-- Witness for C4: a concrete creation with `D = 5` at `c = 100`. -/
theorem new_swap_timeouts_witness :
    (⟨1, 2, 5, 6, 105, 110, false, false, 9⟩ : Swap).timeout_0 = 100 + 5 ∧
    (⟨1, 2, 5, 6, 105, 110, false, false, 9⟩ : Swap).timeout_1 = 100 + 2 * 5 ∧
    (⟨1, 2, 5, 6, 105, 110, false, false, 9⟩ : Swap).timeout_1 - 100 =
      2 * ((⟨1, 2, 5, 6, 105, 110, false, false, 9⟩ : Swap).timeout_0 - 100) ∧
    (0 < 5 → 100 < (⟨1, 2, 5, 6, 105, 110, false, false, 9⟩ : Swap).timeout_0 ∧
      (⟨1, 2, 5, 6, 105, 110, false, false, 9⟩ : Swap).timeout_0 <
        (⟨1, 2, 5, 6, 105, 110, false, false, 9⟩ : Swap).timeout_1) :=
  new_swap_timeouts 0 1 100 9 5 6 2 5
    ⟨1, 2, 5, 6, 105, 110, false, false, 9⟩ (Event.New 0 5 6) (by decide)

/-- Claim C8 (amended): when the contract's swap info is read successfully and
`now` is strictly past `t1`, `tryClaim` fails with `errPastClaimTime` whatever
the claim call would return, so no claim transaction is submitted; when the
swap is not ready and `now < t0`, `tryClaim` waits until `t0` before claiming.
(The unamended claim also asserts the `PastClaimTime` failure at `now = t1`
exactly, where the code proceeds to submit a claim.) -/
theorem tryClaim_timeout_behavior (env : BobEnv) (st : BobSwapState)
    (ready : Bool) (h : env.swapIsReady = .ok ready) :
    (st.t1 < env.now → (tryClaim env st).result = .error errPastClaimTime) ∧
    (env.now < st.t0 → ready = false →
      (tryClaim env st).waitedUntilT0 = true) := by
  unfold tryClaim
  rw [h]
  dsimp only
  constructor
  · intro h1
    rw [if_pos (show st.t1 - env.now < 0 by omega)]
  · intro h0 hready
    subst hready
    split_ifs <;> simp <;> omega

/-- Witness for C8: with `now = 150` past `t1 = 100`, `tryClaim` returns
`errPastClaimTime` even though the claim call itself would have succeeded. -/
theorem tryClaim_timeout_behavior_witness :
    (tryClaim
      ⟨150, .ok [], fun _ => .error "", fun _ _ => .error "",
       fun _ _ => .error "", .ok true, .ok 7⟩
      ⟨.Ongoing, some .NotifyReady, ⟨List.replicate 32 0⟩, [], 0, 50, 100,
       none⟩).result = .error errPastClaimTime :=
  (tryClaim_timeout_behavior
    ⟨150, .ok [], fun _ => .error "", fun _ _ => .error "",
     fun _ _ => .error "", .ok true, .ok 7⟩
    ⟨.Ongoing, some .NotifyReady, ⟨List.replicate 32 0⟩, [], 0, 50, 100, none⟩
    true rfl).1 (by decide)

/-- Counterexample to C8 as stated: at exactly `now = t1` (here both `100`)
`tryClaim` does not fail with `errPastClaimTime`; it proceeds to submit the
claim and returns its result. -/
theorem tryClaim_at_t1_counterexample :
    (tryClaim
      ⟨100, .ok [], fun _ => .error "", fun _ _ => .error "",
       fun _ _ => .error "", .ok true, .ok 7⟩
      ⟨.Ongoing, some .NotifyReady, ⟨List.replicate 32 0⟩, [], 0, 50, 100,
       none⟩).result = .ok 7 ∧
    ¬ (tryClaim
      ⟨100, .ok [], fun _ => .error "", fun _ _ => .error "",
       fun _ _ => .error "", .ok true, .ok 7⟩
      ⟨.Ongoing, some .NotifyReady, ⟨List.replicate 32 0⟩, [], 0, 50, 100,
       none⟩).result = .error errPastClaimTime := by
  refine ⟨by decide, by decide⟩

/-- Claim C7: when role B exits while the next expected message is
`NotifyReady`: (a) the handler first scans the contract's `Refunded` logs;
when one matches the swapID and carries a valid secret, it extracts `s_A`
(endianness reversed by `GetSecretFromLog`), forms the shared spend key
`s_A + s_B` and the view-key sum, persists them, constructs the shared
wallet, and ends with status `CompletedRefund` and the reclaim address set;
(b) when no `Refunded` log is found it attempts claim instead, and a claim
revert containing "swap is already completed" while the swap status is no
longer ongoing makes `exit` return no error and leave the state unchanged. -/
theorem exit_notifyReady_behavior (env : BobEnv) (st : BobSwapState)
    (hnext : st.nextExpectedMessage = some .NotifyReady) :
    (∀ logs logData skA vkA addr,
      st.status = .Ongoing →
      env.refundLogs = .ok logs →
      logs.find? (matchesRefundLog st.contractSwapID) = some logData →
      GetSecretFromLog logData "Refunded" = .ok skA →
      env.viewOf skA = .ok vkA →
      env.writeSharedKeys (SumPrivateSpendKeys skA st.privSpendKeyB)
        (SumPrivateViewKeys vkA st.privViewKeyB) = .ok () →
      env.createWallet (SumPrivateSpendKeys skA st.privSpendKeyB)
        (SumPrivateViewKeys vkA st.privViewKeyB) = .ok addr →
      exit env st =
        (.ok (),
          { st with
            status := .CompletedRefund
            nextExpectedMessage := none
            moneroReclaimAddress := some addr })) ∧
    (∀ e1 e2,
      st.status = .CompletedAbort →
      tryReclaimMonero env st = .error e1 →
      (tryClaim env st).result = .error e2 →
      strContains e2 revertSwapCompleted = true →
      exit env st = (.ok (), st)) := by
  constructor
  · intro logs logData skA vkA addr hstat hlogs hfind hsk hview hwrite hwallet
    have hne : logs.isEmpty = false := by
      cases logs with
      | nil => simp at hfind
      | cons a as => rfl
    have hffr : filterForRefund env st = .ok skA := by
      unfold filterForRefund
      rw [hlogs]
      dsimp only
      rw [if_neg (by simp [hne])]
      rw [hfind]
      dsimp only
      rw [hsk]
    have hrm : tryReclaimMonero env st = .ok addr := by
      unfold tryReclaimMonero reclaimMonero
      rw [hffr]
      dsimp only
      simp only [hview, hwrite, hwallet]
    unfold exit
    rw [if_neg (by simp [hstat]), if_neg (by simp [hstat])]
    rw [hnext]
    simp only [hrm, clearNextExpectedMessage]
  · intro e1 e2 hstat hrm htc hsub
    unfold exit
    rw [if_neg (by simp [hstat]), if_neg (by simp [hstat])]
    rw [hnext]
    simp only [hrm, htc, hsub, hstat, Status.IsOngoing, Bool.not_false,
      Bool.and_true, if_pos]

/-- Witness for C7: both branches at concrete inputs — a matching `Refunded`
log drives `exit` to `CompletedRefund` with the reclaim address set, and with
no refund logs a claim revert containing "swap is already completed" on a
no-longer-ongoing swap makes `exit` return no error. -/
theorem exit_notifyReady_behavior_witness :
    exit
      ⟨0, .ok [[.uint 3, .bytes32 (List.replicate 31 0 ++ [1])]],
       fun _ => .ok [2], fun _ _ => .ok (), fun _ _ => .ok "a9",
       .ok false, .error "x"⟩
      ⟨.Ongoing, some .NotifyReady, ⟨(4 : Nat) :: List.replicate 31 0⟩, [3],
       3, 0, 0, none⟩ =
      (.ok (), ⟨.CompletedRefund, none, ⟨(4 : Nat) :: List.replicate 31 0⟩,
        [3], 3, 0, 0, some "a9"⟩) ∧
    exit
      ⟨0, .ok [], fun _ => .error "", fun _ _ => .error "",
       fun _ _ => .error "", .ok true,
       .error "execution reverted: swap is already completed"⟩
      ⟨.CompletedAbort, some .NotifyReady, ⟨List.replicate 32 0⟩, [], 3,
       0, 0, none⟩ =
      (.ok (), ⟨.CompletedAbort, some .NotifyReady, ⟨List.replicate 32 0⟩,
        [], 3, 0, 0, none⟩) := by
  constructor
  · exact (exit_notifyReady_behavior
      ⟨0, .ok [[.uint 3, .bytes32 (List.replicate 31 0 ++ [1])]],
       fun _ => .ok [2], fun _ _ => .ok (), fun _ _ => .ok "a9",
       .ok false, .error "x"⟩
      ⟨.Ongoing, some .NotifyReady, ⟨(4 : Nat) :: List.replicate 31 0⟩, [3],
       3, 0, 0, none⟩ rfl).1
      [[.uint 3, .bytes32 (List.replicate 31 0 ++ [1])]]
      [.uint 3, .bytes32 (List.replicate 31 0 ++ [1])]
      ⟨(1 : Nat) :: List.replicate 31 0⟩ [2] "a9"
      rfl rfl (by decide) (by decide) rfl rfl rfl
  · exact (exit_notifyReady_behavior
      ⟨0, .ok [], fun _ => .error "", fun _ _ => .error "",
       fun _ _ => .error "", .ok true,
       .error "execution reverted: swap is already completed"⟩
      ⟨.CompletedAbort, some .NotifyReady, ⟨List.replicate 32 0⟩, [], 3,
       0, 0, none⟩ rfl).2
      errNoRefundLogsFound "execution reverted: swap is already completed"
      rfl (by decide) (by decide) (by decide)

/-- Claim C10: every checkpoint-file writer is a read-modify-write: on an
existing file whose contents unmarshal to `c`, each writer rewrites the file
changing only the field(s) it sets, and every other persisted field of `c` is
preserved unchanged. -/
theorem checkpoint_writers_frame (c : InfoFileContents) (addr : String)
    (swapID : List Nat) (sw : Swap) (ki kj : PrivKeyInfo) :
    (∃ c1, WriteContractAddressToFile (some (some c)) addr =
        .ok (some (some c1)) ∧
      c1.ContractAddress = addr ∧ c1.ContractSwapID = c.ContractSwapID ∧
      c1.ContractSwap = c.ContractSwap ∧
      c1.PrivateKeyInfo = c.PrivateKeyInfo ∧
      c1.SharedSwapPrivateKey = c.SharedSwapPrivateKey) ∧
    (∃ c2, WriteContractSwapToFile (some (some c)) swapID sw =
        .ok (some (some c2)) ∧
      c2.ContractSwapID = swapID ∧ c2.ContractSwap = sw ∧
      c2.ContractAddress = c.ContractAddress ∧
      c2.PrivateKeyInfo = c.PrivateKeyInfo ∧
      c2.SharedSwapPrivateKey = c.SharedSwapPrivateKey) ∧
    (∃ c3, WriteKeysToFile (some (some c)) ki = .ok (some (some c3)) ∧
      c3.PrivateKeyInfo = some ki ∧
      c3.ContractAddress = c.ContractAddress ∧
      c3.ContractSwapID = c.ContractSwapID ∧
      c3.ContractSwap = c.ContractSwap ∧
      c3.SharedSwapPrivateKey = c.SharedSwapPrivateKey) ∧
    (∃ c4, WriteSharedSwapKeyPairToFile (some (some c)) kj =
        .ok (some (some c4)) ∧
      c4.SharedSwapPrivateKey = some kj ∧
      c4.ContractAddress = c.ContractAddress ∧
      c4.ContractSwapID = c.ContractSwapID ∧
      c4.ContractSwap = c.ContractSwap ∧
      c4.PrivateKeyInfo = c.PrivateKeyInfo) := by
  refine ⟨⟨_, rfl, rfl, rfl, rfl, rfl, rfl⟩, ⟨_, rfl, rfl, rfl, rfl, rfl, rfl⟩,
    ⟨_, rfl, rfl, rfl, rfl, rfl, rfl⟩, ⟨_, rfl, rfl, rfl, rfl, rfl, rfl⟩⟩

end AtomicSwap
